import Mathlib

/-!
Verification of the chunked speech-generation pipeline and voice-reference
lifecycle of the Voice-Cloning-Engine repository.

The embedding models:
* `core/voice_manager.py` — `VoiceManager.load_voices`, `get_voice_list`,
  `voice_exists`, `load_reference` (its artifact-dispatch), `clone_voice`,
  `delete_voice`.  The on-disk samples directory is modelled by `VoiceFS`
  (which basenames carry a `.txt` / `.wav` / `.pt` artifact); per-voice
  artifact paths follow the `{name}.{ext}` convention and are modelled
  structurally by `RefPath`.
* `core/speech_generator.py` — `SpeechGenerator.process_chunk`,
  `estimate_generation_time`, `_apply_speed_adjustment` (`apply_speed_adjustment`
  here), and the generator `generate_speech`.  The external TTS model is an
  oracle (`ModelOracle`) giving the outcome of each successive `infer` call;
  wall-clock readings are an oracle `elapsed`.  The yielded events of the generator
  and its `infer` invocations are recorded in one interleaved trace
  (`List GenItem`), and the written output file is the second component of the
  result (`none` when nothing is written).
Machine floats of the source are modelled by exact rationals.
-/

/-- The three artifact extensions used by the voice store (`.txt`, `.wav`, `.pt`). -/
inductive FileExt where
  | txt
  | wav
  | pt
deriving DecidableEq

/-- A per-voice artifact path `{base}.{ext}` (code: `SAMPLES_DIR / f"{base}.{ext}"`). -/
structure RefPath where
  base : String
  ext : FileExt
deriving DecidableEq

/-- A registry entry: `(txt_path, audio_or_pt)` as stored in `self.voices["samples"]`. -/
abbrev VoiceEntry := RefPath × RefPath

/-- The samples directory: which basenames have a `.txt`, `.wav`, `.pt` file. -/
structure VoiceFS where
  txts : List String
  wavs : List String
  pts : List String
deriving DecidableEq

/-- Python emptiness test `not s or not s.strip()`: the string has no
non-whitespace character. -/
def isBlank (s : String) : Bool :=
  s.data.all (fun c => c.isWhitespace)

/-- Writing (or overwriting) a file: the basename is now present. -/
def addFile (l : List String) (b : String) : List String :=
  if b ∈ l then l else l ++ [b]

/-- Source `path.unlink()` guarded by `path.exists()`: the basename is no longer present. -/
def removeFile (l : List String) (b : String) : List String :=
  l.filter (fun x => x ≠ b)

/-- Source `VoiceManager.load_voices`: scan the samples directory; for each `.txt` file,
keep the voice iff the text file and a `.wav` or `.pt` exist, the audio path
preferring `.wav` (`audio_or_pt = wav_path if wav_path.exists() else pt_path`). -/
def load_voices (fs : VoiceFS) : List (String × VoiceEntry) :=
  fs.txts.filterMap (fun base =>
    if base ∈ fs.txts ∧ (base ∈ fs.wavs ∨ base ∈ fs.pts) then
      some (base, (⟨base, .txt⟩, if base ∈ fs.wavs then ⟨base, .wav⟩ else ⟨base, .pt⟩))
    else none)

/-- The voice-manager state: the samples directory and the in-memory
`self.voices["samples"]` mapping (insertion-ordered, like a Python dict). -/
structure VMState where
  fs : VoiceFS
  voices : List (String × VoiceEntry)
deriving DecidableEq

/-- Source `VoiceManager.get_voice_list`: `list(self.voices["samples"].keys())`. -/
def get_voice_list (st : VMState) : List String :=
  st.voices.map Prod.fst

/-- Source `VoiceManager.voice_exists`: `voice_name in self.voices["samples"]`. -/
def voice_exists (st : VMState) (name : String) : Bool :=
  st.voices.any (fun p => p.1 = name)

/-- Python dict lookup `self.voices["samples"][name]` (keys are unique in a dict;
on an association list we take the first hit). -/
def findEntry : List (String × VoiceEntry) → String → Option VoiceEntry
  | [], _ => none
  | p :: rest, name => if p.1 = name then some p.2 else findEntry rest name

/-- How `load_reference` obtains the reference codes. -/
inductive RefMethod where
  | torchLoad
  | encodeReference
deriving DecidableEq

/-- The dispatch in `VoiceManager.load_reference`:
`torch.load` if `audio_or_pt.endswith(".pt")` else `tts_model.encode_reference`. -/
def reference_method (p : RefPath) : RefMethod :=
  if p.ext = .pt then .torchLoad else .encodeReference

/-- Status returned by `clone_voice` (the human-readable strings of the source,
one constructor per distinct message; the accompanying `gr.update` is dropped). -/
inductive CloneStatus where
  | ok (name : String)
  | errEmptyName
  | errEmptyText
  | errNoAudio
  | errDuplicate (name : String)
  | errException (msg : String)
deriving DecidableEq

/-- Source `VoiceManager.clone_voice`.  `encode` is the external
`tts_model.encode_reference` collaborator (it may raise); `readable` is the set
of source paths `shutil.copy` can read.  Validations run in source order; after
them the transcript is written, the audio copied, the reference encoded and
saved, and the entry inserted into the dict.  An exception after a partial
write leaves the already-written files in place and the dict untouched. -/
def clone_voice (st : VMState) (encode : RefPath → Except String Unit)
    (readable : List String) (new_name ref_text : String) (audio_file : Option String) :
    CloneStatus × VMState :=
  if isBlank new_name then (.errEmptyName, st)
  else if isBlank ref_text then (.errEmptyText, st)
  else
    match audio_file with
    | none => (.errNoAudio, st)
    | some af =>
      if voice_exists st new_name then (.errDuplicate new_name, st)
      else
        let fs1 := { st.fs with txts := addFile st.fs.txts new_name }
        if af ∈ readable then
          let fs2 := { fs1 with wavs := addFile fs1.wavs new_name }
          match encode ⟨new_name, .wav⟩ with
          | .ok _ =>
            let fs3 := { fs2 with pts := addFile fs2.pts new_name }
            (.ok new_name,
             { fs := fs3,
               voices := st.voices ++ [(new_name, (⟨new_name, .txt⟩, ⟨new_name, .pt⟩))] })
          | .error e => (.errException e, { st with fs := fs2 })
        else (.errException "copy failed", { st with fs := fs1 })

/-- Status returned by `delete_voice`. -/
inductive DeleteStatus where
  | ok (name : String)
  | errNotFound (name : String)
deriving DecidableEq

/-- Source `VoiceManager.delete_voice`: not-found check, then unlink each of the three
artifact files that exists, then `del self.voices["samples"][voice_name]`. -/
def delete_voice (st : VMState) (voice_name : String) : DeleteStatus × VMState :=
  if voice_exists st voice_name = false then (.errNotFound voice_name, st)
  else
    (.ok voice_name,
     { fs := { txts := removeFile st.fs.txts voice_name,
               wavs := removeFile st.fs.wavs voice_name,
               pts := removeFile st.fs.pts voice_name },
       voices := st.voices.filter (fun p => p.1 ≠ voice_name) })

/-! Speech generator embedding. -/

/-- An audio waveform (a numpy sample array, samples as exact rationals). -/
abbrev Wave := List ℚ

/-- Constant `config.SAMPLE_RATE = 24000`. -/
def SAMPLE_RATE : ℚ := 24000

/-- Constant `config.SILENCE_DURATION = 0.25`. -/
def SILENCE_DURATION : ℚ := 1 / 4

/-- Constant `config.TEMP_OUTPUT_PATH` (as the path string the success event carries). -/
def TEMP_OUTPUT_PATH : String := "temp_output.wav"

/-- The external TTS model: `results k` is the outcome of the `k`-th
`tts_model.infer` call of the job (`.error` = the call raises). -/
structure ModelOracle where
  results : Nat → Except String Wave

/-- Source `SpeechGenerator.process_chunk`: one `tts_model.infer` call; any exception
is swallowed and turned into `none`.  `calls` is the number of `infer` calls
made so far; the second component is the count afterwards. -/
def process_chunk (m : ModelOracle) (calls : Nat) : Option Wave × Nat :=
  match m.results calls with
  | .ok w => (some w, calls + 1)
  | .error _ => (none, calls + 1)

/-- Source `SpeechGenerator.estimate_generation_time`: `num_chunks * 3 + 2`. -/
def estimate_generation_time (num_chunks : Nat) : Nat :=
  num_chunks * 3 + 2

/-- Python `int()` applied to a rational: truncation toward zero. -/
def pyInt (q : ℚ) : ℤ :=
  if 0 ≤ q then ⌊q⌋ else ⌈q⌉

/-- Numpy `np.round` on one value: round half to even. -/
def roundHalfEven (q : ℚ) : ℤ :=
  if q - ⌊q⌋ < 1 / 2 then ⌊q⌋
  else if 1 / 2 < q - ⌊q⌋ then ⌊q⌋ + 1
  else if Even ⌊q⌋ then ⌊q⌋ else ⌊q⌋ + 1

/-- Numpy `np.linspace(0, stop, num)` (endpoint included, exact arithmetic). -/
def linspace0 (stop : ℚ) (num : Nat) : List ℚ :=
  if num = 0 then []
  else if num = 1 then [0]
  else (List.range num).map (fun k : ℕ => stop * (k : ℚ) / ((num : ℚ) - 1))

/-- Source `SpeechGenerator._apply_speed_adjustment`: identity at speed 1, otherwise
`target_length = int(len(audio) / speed)`,
`indices = np.round(np.linspace(0, len(audio) - 1, target_length))`,
`audio[indices]`.  A zero speed raises `ZeroDivisionError` and a negative
sample count makes `np.linspace` raise; both are modelled as `.error`. -/
def apply_speed_adjustment (audio : Wave) (speed : ℚ) : Except String Wave :=
  if speed = 1 then .ok audio
  else if speed = 0 then .error "float division by zero"
  else
    let target := pyInt ((audio.length : ℚ) / speed)
    if target < 0 then .error "Number of samples must be non-negative"
    else
      .ok ((linspace0 ((audio.length : ℚ) - 1) target.toNat).map
        (fun x => audio.getD (roundHalfEven x).toNat 0))

/-- Status messages of the events yielded by `generate_speech`, one constructor
per distinct message of the source, carrying the numeric figures that the
source interpolates into the string. -/
inductive GenStatus where
  | errEmptyText
  | errNoVoice
  | errVoiceNotFound (name : String)
  | loadingRef
  | estimatedTotal (est : Nat) (n : Nat)
  | processing (i n progress : Nat) (estRemaining : Option ℚ)
  | finalizing
  | complete (total : ℚ)
  | errorGenerating (msg : String)
deriving DecidableEq

/-- One yielded tuple `(progress, audio_path, status_message, delete_status)`
of `generate_speech` (the fourth component is constantly `None` and dropped). -/
structure GenEvent where
  progress : Nat
  path : Option String
  status : GenStatus
deriving DecidableEq

/-- One step of the job trace: a yielded event, or the `k`-th `infer` call. -/
inductive GenItem where
  | ev (e : GenEvent)
  | call (k : Nat)
deriving DecidableEq

/-- Source `progress = int(15 + (75 * i / total_chunks))`. -/
def chunkProgress (i n : Nat) : Nat :=
  (⌊(15 : ℚ) + 75 * i / n⌋).toNat

/-- The progress event yielded at the top of loop iteration `i` (1-based):
`Processing chunk i/n`, with the estimated remaining time
`(elapsed / (i - 1)) * (n - (i - 1))` from the second chunk onward. -/
def chunkEvent (i n : Nat) (elapsed : ℚ) : GenEvent :=
  ⟨chunkProgress i n, none,
   .processing i n (chunkProgress i n)
     (if 1 < i then some (elapsed / ((i - 1 : Nat) : ℚ) * ((n - (i - 1) : Nat) : ℚ))
      else none)⟩

/-- The per-chunk loop of `generate_speech` over the remaining (0-based) chunk
indices, threading the `infer` call count: yield the progress event, run
`process_chunk`, keep `(i - 1, chunk_wav)` when the chunk produced audio. -/
def genLoop (m : ModelOracle) (elapsed : Nat → ℚ) (n : Nat) :
    List Nat → Nat → List GenItem × List (Nat × Wave)
  | [], _ => ([], [])
  | j :: rest, calls =>
    let pc := process_chunk m calls
    let restOut := genLoop m elapsed n rest pc.2
    (GenItem.ev (chunkEvent (j + 1) n (elapsed (j + 1))) :: GenItem.call calls :: restOut.1,
     (match pc.1 with
      | some w => [(j, w)]
      | none => []) ++ restOut.2)

/-- Source `silence = np.zeros(int(SAMPLE_RATE * SILENCE_DURATION))`. -/
def silenceWave : Wave :=
  List.replicate (⌊SAMPLE_RATE * SILENCE_DURATION⌋).toNat 0

/-- Source `all_wav = processed_chunks[0]`, then
`all_wav = np.concatenate([all_wav, silence, chunk_wav])` for the rest. -/
def concatWithSilence (sil : Wave) : List Wave → Wave
  | [] => []
  | w :: rest => rest.foldl (fun acc c => acc ++ sil ++ c) w

/-- The events of a trace, in order (dropping the `infer`-call markers). -/
def eventsOf (items : List GenItem) : List GenEvent :=
  items.filterMap (fun it =>
    match it with
    | .ev e => some e
    | .call _ => none)

/-- Source `SpeechGenerator.generate_speech`.  `split` is `split_text_into_chunks`
(from `core.text_processor`, an external collaborator of this module), `m` the
TTS model oracle, `elapsed i` the wall-clock reading `time.time() - start_time`
taken at loop iteration `i`, and `totalElapsed` the reading at the end.
Returns the interleaved trace of yielded events and `infer` calls, and the
waveform written to `TEMP_OUTPUT_PATH` (`none` when no file is written).  Any
exception inside the body is caught by the top-level handler and converted to
a terminal event with progress 0. -/
def generate_speech (split : String → List String) (m : ModelOracle)
    (elapsed : Nat → ℚ) (totalElapsed : ℚ) (st : VMState)
    (text voice_name : String) (speed : ℚ) : List GenItem × Option Wave :=
  if text = "" ∨ isBlank text then
    ([.ev ⟨0, none, .errEmptyText⟩], none)
  else if voice_name = "" then
    ([.ev ⟨0, none, .errNoVoice⟩], none)
  else if voice_exists st voice_name = false then
    ([.ev ⟨0, none, .errVoiceNotFound voice_name⟩], none)
  else
    let chunks := split text
    let n := chunks.length
    if n = 0 then
      ([.ev ⟨10, none, .loadingRef⟩, .ev ⟨0, none, .errorGenerating "No text to process"⟩],
       none)
    else
      let header : List GenItem :=
        [.ev ⟨10, none, .loadingRef⟩,
         .ev ⟨15, none, .estimatedTotal (estimate_generation_time n) n⟩]
      let loop := genLoop m elapsed n (List.range n) 0
      if loop.2 = [] then
        (header ++ loop.1 ++ [.ev ⟨0, none, .errorGenerating "Failed to generate any audio"⟩],
         none)
      else
        let sorted := List.insertionSort (fun a b => a.1 ≤ b.1) loop.2
        let assembled := concatWithSilence silenceWave (sorted.map Prod.snd)
        let final : Except String Wave :=
          if speed = 1 then .ok assembled else apply_speed_adjustment assembled speed
        match final with
        | .error e =>
          (header ++ loop.1 ++ [.ev ⟨90, none, .finalizing⟩,
                                .ev ⟨0, none, .errorGenerating e⟩],
           none)
        | .ok w =>
          (header ++ loop.1 ++ [.ev ⟨90, none, .finalizing⟩,
                                .ev ⟨100, some TEMP_OUTPUT_PATH, .complete totalElapsed⟩],
           some w)

/-! Helper lemmas for the voice manager. -/

theorem mem_keys_load_voices (fs : VoiceFS) (base : String) :
    base ∈ (load_voices fs).map Prod.fst ↔
      base ∈ fs.txts ∧ (base ∈ fs.wavs ∨ base ∈ fs.pts) := by
  constructor
  · rintro h
    rcases List.mem_map.1 h with ⟨p, hp, rfl⟩
    rcases List.mem_filterMap.1 hp with ⟨a, _, hf⟩
    by_cases hc : a ∈ fs.txts ∧ (a ∈ fs.wavs ∨ a ∈ fs.pts)
    · rw [if_pos hc] at hf
      cases hf
      exact hc
    · rw [if_neg hc] at hf
      cases hf
  · rintro ⟨ht, hor⟩
    refine List.mem_map.2 ⟨(base, (⟨base, .txt⟩,
      if base ∈ fs.wavs then ⟨base, .wav⟩ else ⟨base, .pt⟩)), ?_, rfl⟩
    exact List.mem_filterMap.2 ⟨base, ht, by rw [if_pos ⟨ht, hor⟩]⟩

theorem findEntry_cons_of_ne (p : String × VoiceEntry) (l : List (String × VoiceEntry))
    (name : String) (h : p.1 ≠ name) : findEntry (p :: l) name = findEntry l name := by
  simp [findEntry, h]

theorem findEntry_load_voices_aux (fs : VoiceFS) (base : String)
    (hc : base ∈ fs.txts ∧ (base ∈ fs.wavs ∨ base ∈ fs.pts)) :
    ∀ l : List String, base ∈ l →
      findEntry (l.filterMap (fun b =>
        if b ∈ fs.txts ∧ (b ∈ fs.wavs ∨ b ∈ fs.pts) then
          some (b, (⟨b, .txt⟩, if b ∈ fs.wavs then ⟨b, .wav⟩ else ⟨b, .pt⟩))
        else none)) base =
      some (⟨base, .txt⟩, if base ∈ fs.wavs then ⟨base, .wav⟩ else ⟨base, .pt⟩) := by
  intro l
  induction l with
  | nil => intro h; cases h
  | cons a rest ih =>
    intro hmem
    rw [List.filterMap_cons]
    by_cases hca : a ∈ fs.txts ∧ (a ∈ fs.wavs ∨ a ∈ fs.pts)
    · rw [if_pos hca]
      by_cases hab : a = base
      · subst hab
        simp [findEntry]
      · rw [findEntry_cons_of_ne _ _ _ hab]
        exact ih (by rcases List.mem_cons.1 hmem with h | h
                     · exact absurd h.symm hab
                     · exact h)
    · rw [if_neg hca]
      refine ih ?_
      rcases List.mem_cons.1 hmem with h | h
      · subst h; exact absurd hc hca
      · exact h

theorem findEntry_load_voices (fs : VoiceFS) (base : String)
    (ht : base ∈ fs.txts) (hor : base ∈ fs.wavs ∨ base ∈ fs.pts) :
    findEntry (load_voices fs) base =
      some (⟨base, .txt⟩, if base ∈ fs.wavs then ⟨base, .wav⟩ else ⟨base, .pt⟩) :=
  findEntry_load_voices_aux fs base ⟨ht, hor⟩ fs.txts ht

theorem findEntry_append_fresh (l : List (String × VoiceEntry)) (name : String)
    (e : VoiceEntry) (h : ∀ p ∈ l, p.1 ≠ name) :
    findEntry (l ++ [(name, e)]) name = some e := by
  induction l with
  | nil => simp [findEntry]
  | cons a rest ih =>
    rw [List.cons_append]
    rw [show findEntry ((a : String × VoiceEntry) :: (rest ++ [(name, e)])) name =
          findEntry (rest ++ [(name, e)]) name from by
        simp [findEntry, h a (List.mem_cons_self a rest)]]
    exact ih (fun p hp => h p (List.mem_cons_of_mem a hp))

theorem filter_ne_eq_self (l : List (String × VoiceEntry)) (name : String)
    (h : ∀ p ∈ l, p.1 ≠ name) :
    l.filter (fun p => p.1 ≠ name) = l := by
  refine List.filter_eq_self.2 ?_
  intro p hp
  simpa using h p hp

theorem not_mem_removeFile (l : List String) (b : String) : b ∉ removeFile l b := by
  intro h
  rcases List.mem_filter.1 h with ⟨_, hb⟩
  simp at hb

theorem voice_exists_false_iff (st : VMState) (name : String) :
    voice_exists st name = false ↔ ∀ p ∈ st.voices, p.1 ≠ name := by
  unfold voice_exists
  rw [List.any_eq_false]
  constructor
  · intro h p hp
    have := h p hp
    simpa using this
  · intro h p hp
    simpa using h p hp

/-! Claims about the voice manager. -/

/-- C2 (counterexample): a voice whose on-disk set contains the transcript AND
BOTH the raw audio and the precomputed encoding is nevertheless included by
`load_voices`, refuting the "exactly one of {raw audio, encoding}" condition:
the scan requires at least one, not exactly one. -/
theorem load_voices_keeps_voice_with_both_artifacts :
    "a" ∈ (load_voices ⟨["a"], ["a"], ["a"]⟩).map Prod.fst ∧
    "a" ∈ VoiceFS.wavs ⟨["a"], ["a"], ["a"]⟩ ∧
    "a" ∈ VoiceFS.pts ⟨["a"], ["a"], ["a"]⟩ := by
  decide

/-- C2 (amended): `load_voices` includes a candidate voice in the registry iff
the on-disk set contains the transcript file plus AT LEAST one of
{raw reference audio, precomputed encoding}; a candidate missing the
transcript, or missing both audio and encoding, is silently excluded (the scan
is total and merely omits it). -/
theorem load_voices_mem_iff (fs : VoiceFS) (base : String) :
    base ∈ (load_voices fs).map Prod.fst ↔
      base ∈ fs.txts ∧ (base ∈ fs.wavs ∨ base ∈ fs.pts) :=
  mem_keys_load_voices fs base

/-- C9: a `clone_voice` call that fails validation — empty name, empty
transcript, missing audio file, or duplicate name (with the other inputs
valid) — returns the corresponding error and leaves the whole state (files
and registry) unchanged, so the first entry under the duplicated name is untouched. -/
theorem clone_voice_validation_failures (st : VMState)
    (encode : RefPath → Except String Unit) (readable : List String)
    (new_name ref_text : String) (audio_file : Option String) (af : String) :
    (isBlank new_name = true →
      clone_voice st encode readable new_name ref_text audio_file = (.errEmptyName, st)) ∧
    (isBlank new_name = false → isBlank ref_text = true →
      clone_voice st encode readable new_name ref_text audio_file = (.errEmptyText, st)) ∧
    (isBlank new_name = false → isBlank ref_text = false →
      clone_voice st encode readable new_name ref_text none = (.errNoAudio, st)) ∧
    (isBlank new_name = false → isBlank ref_text = false → voice_exists st new_name = true →
      clone_voice st encode readable new_name ref_text (some af) =
        (.errDuplicate new_name, st)) := by
  refine ⟨?_, ?_, ?_, ?_⟩
  · intro h
    unfold clone_voice
    simp only [h, if_true]
  · intro h1 h2
    unfold clone_voice
    simp only [h1, h2, if_true, Bool.false_eq_true, if_false]
  · intro h1 h2
    unfold clone_voice
    simp only [h1, h2, Bool.false_eq_true, if_false]
  · intro h1 h2 h3
    unfold clone_voice
    simp only [h1, h2, h3, if_true, Bool.false_eq_true, if_false]

/-- C9 (witness): the four validation failures at concrete inputs. -/
theorem clone_voice_validation_failures_witness :
    (clone_voice ⟨⟨[], [], []⟩, []⟩ (fun _ => .ok ()) [] " " "t" (some "x") =
      (.errEmptyName, ⟨⟨[], [], []⟩, []⟩)) ∧
    (clone_voice ⟨⟨[], [], []⟩, []⟩ (fun _ => .ok ()) [] "v" " " (some "x") =
      (.errEmptyText, ⟨⟨[], [], []⟩, []⟩)) ∧
    (clone_voice ⟨⟨[], [], []⟩, []⟩ (fun _ => .ok ()) [] "v" "t" none =
      (.errNoAudio, ⟨⟨[], [], []⟩, []⟩)) ∧
    (clone_voice ⟨⟨["v"], ["v"], []⟩, [("v", (⟨"v", .txt⟩, ⟨"v", .wav⟩))]⟩
        (fun _ => .ok ()) [] "v" "t" (some "x") =
      (.errDuplicate "v", ⟨⟨["v"], ["v"], []⟩, [("v", (⟨"v", .txt⟩, ⟨"v", .wav⟩))]⟩)) := by
  refine ⟨?_, ?_, ?_, ?_⟩
  · exact (clone_voice_validation_failures _ (fun _ => .ok ()) [] " " "t" (some "x") "x").1
      (by decide)
  · exact (clone_voice_validation_failures _ (fun _ => .ok ()) [] "v" " " (some "x") "x").2.1
      (by decide) (by decide)
  · exact (clone_voice_validation_failures _ (fun _ => .ok ()) [] "v" "t" none "x").2.2.1
      (by decide) (by decide)
  · exact (clone_voice_validation_failures _ (fun _ => .ok ()) [] "v" "t" (some "x")
      "x").2.2.2 (by decide) (by decide) (by decide)

/-- C8: a successful `clone_voice` of a fresh name followed immediately by
`delete_voice` of that name restores the registry: the delete succeeds, the
voice list equals the list before the clone, and none of the three per-voice
artifact files (transcript, raw audio, encoding) remain on disk. -/
theorem clone_then_delete_restores (st : VMState)
    (encode : RefPath → Except String Unit) (readable : List String)
    (new_name ref_text af : String)
    (hname : isBlank new_name = false)
    (htext : isBlank ref_text = false)
    (hread : af ∈ readable)
    (henc : encode ⟨new_name, .wav⟩ = .ok ())
    (hfresh : voice_exists st new_name = false) :
    (clone_voice st encode readable new_name ref_text (some af)).1 = .ok new_name ∧
    (delete_voice (clone_voice st encode readable new_name ref_text (some af)).2 new_name).1 =
      .ok new_name ∧
    get_voice_list
      (delete_voice (clone_voice st encode readable new_name ref_text (some af)).2 new_name).2 =
      get_voice_list st ∧
    new_name ∉
      (delete_voice (clone_voice st encode readable new_name ref_text (some af)).2 new_name).2.fs.txts ∧
    new_name ∉
      (delete_voice (clone_voice st encode readable new_name ref_text (some af)).2 new_name).2.fs.wavs ∧
    new_name ∉
      (delete_voice (clone_voice st encode readable new_name ref_text (some af)).2 new_name).2.fs.pts := by
  have hfresh' := (voice_exists_false_iff st new_name).1 hfresh
  have hclone : clone_voice st encode readable new_name ref_text (some af) =
      (.ok new_name,
       { fs := { txts := addFile st.fs.txts new_name,
                 wavs := addFile st.fs.wavs new_name,
                 pts := addFile st.fs.pts new_name },
         voices := st.voices ++ [(new_name, (⟨new_name, .txt⟩, ⟨new_name, .pt⟩))] }) := by
    unfold clone_voice
    simp only [hname, htext, hfresh, Bool.false_eq_true, if_false, if_pos hread, henc]
  rw [hclone]
  have hex2 : voice_exists
      (⟨⟨addFile st.fs.txts new_name, addFile st.fs.wavs new_name, addFile st.fs.pts new_name⟩,
        st.voices ++ [(new_name, (⟨new_name, .txt⟩, ⟨new_name, .pt⟩))]⟩ : VMState) new_name =
      true := by
    unfold voice_exists
    simp
  have hdel : delete_voice
      (⟨⟨addFile st.fs.txts new_name, addFile st.fs.wavs new_name, addFile st.fs.pts new_name⟩,
        st.voices ++ [(new_name, (⟨new_name, .txt⟩, ⟨new_name, .pt⟩))]⟩ : VMState) new_name =
      (.ok new_name,
       { fs := { txts := removeFile (addFile st.fs.txts new_name) new_name,
                 wavs := removeFile (addFile st.fs.wavs new_name) new_name,
                 pts := removeFile (addFile st.fs.pts new_name) new_name },
         voices := (st.voices ++
             [(new_name, ((⟨new_name, .txt⟩ : RefPath), (⟨new_name, .pt⟩ : RefPath)))]).filter
           (fun p => p.1 ≠ new_name) }) := by
    unfold delete_voice
    rw [hex2]
    simp
  refine ⟨rfl, ?_, ?_, ?_, ?_, ?_⟩
  · rw [hdel]
  · rw [hdel]
    unfold get_voice_list
    simp only
    rw [List.filter_append, filter_ne_eq_self st.voices new_name hfresh']
    simp
  · rw [hdel]; exact not_mem_removeFile _ _
  · rw [hdel]; exact not_mem_removeFile _ _
  · rw [hdel]; exact not_mem_removeFile _ _

/-- C8 (witness): clone then delete of voice `"w"` on a concrete one-voice
registry returns the original voice list with no `"w"` artifacts left. -/
theorem clone_then_delete_restores_witness :
    (clone_voice ⟨⟨["v"], ["v"], []⟩, [("v", (⟨"v", .txt⟩, ⟨"v", .wav⟩))]⟩
        (fun _ => .ok ()) ["src.wav"] "w" "t" (some "src.wav")).1 = .ok "w" ∧
    (delete_voice (clone_voice ⟨⟨["v"], ["v"], []⟩, [("v", (⟨"v", .txt⟩, ⟨"v", .wav⟩))]⟩
        (fun _ => .ok ()) ["src.wav"] "w" "t" (some "src.wav")).2 "w").1 = .ok "w" ∧
    get_voice_list
      (delete_voice (clone_voice ⟨⟨["v"], ["v"], []⟩, [("v", (⟨"v", .txt⟩, ⟨"v", .wav⟩))]⟩
        (fun _ => .ok ()) ["src.wav"] "w" "t" (some "src.wav")).2 "w").2 =
      get_voice_list ⟨⟨["v"], ["v"], []⟩, [("v", (⟨"v", .txt⟩, ⟨"v", .wav⟩))]⟩ ∧
    "w" ∉
      (delete_voice (clone_voice ⟨⟨["v"], ["v"], []⟩, [("v", (⟨"v", .txt⟩, ⟨"v", .wav⟩))]⟩
        (fun _ => .ok ()) ["src.wav"] "w" "t" (some "src.wav")).2 "w").2.fs.txts ∧
    "w" ∉
      (delete_voice (clone_voice ⟨⟨["v"], ["v"], []⟩, [("v", (⟨"v", .txt⟩, ⟨"v", .wav⟩))]⟩
        (fun _ => .ok ()) ["src.wav"] "w" "t" (some "src.wav")).2 "w").2.fs.wavs ∧
    "w" ∉
      (delete_voice (clone_voice ⟨⟨["v"], ["v"], []⟩, [("v", (⟨"v", .txt⟩, ⟨"v", .wav⟩))]⟩
        (fun _ => .ok ()) ["src.wav"] "w" "t" (some "src.wav")).2 "w").2.fs.pts :=
  clone_then_delete_restores ⟨⟨["v"], ["v"], []⟩, [("v", (⟨"v", .txt⟩, ⟨"v", .wav⟩))]⟩
    (fun _ => .ok ()) ["src.wav"] "w" "t" "src.wav"
    (by decide) (by decide) (by decide) rfl (by decide)

/-- C10: when the on-disk set of a voice has the transcript, the raw audio AND the
persisted encoding, `load_voices` maps the registry entry to the raw-audio
(`.wav`) path, so `load_reference` dispatches to the external
`encode_reference` collaborator rather than `torch.load`; only the in-memory
entry inserted by a successful `clone_voice` itself points at the `.pt` path
and dispatches to `torch.load`. -/
theorem load_voices_prefers_wav_over_pt (fs : VoiceFS) (base : String)
    (st : VMState) (encode : RefPath → Except String Unit) (readable : List String)
    (ref_text af : String) :
    (base ∈ fs.txts → base ∈ fs.wavs → base ∈ fs.pts →
      findEntry (load_voices fs) base = some (⟨base, .txt⟩, ⟨base, .wav⟩) ∧
      reference_method ⟨base, .wav⟩ = .encodeReference) ∧
    (isBlank base = false → isBlank ref_text = false → af ∈ readable →
      encode ⟨base, .wav⟩ = .ok () → voice_exists st base = false →
      findEntry (clone_voice st encode readable base ref_text (some af)).2.voices base =
        some (⟨base, .txt⟩, ⟨base, .pt⟩) ∧
      reference_method ⟨base, .pt⟩ = .torchLoad) := by
  constructor
  · intro ht hw hp
    refine ⟨?_, rfl⟩
    rw [findEntry_load_voices fs base ht (Or.inl hw)]
    rw [if_pos hw]
  · intro hname htext hread henc hfresh
    have hfresh' := (voice_exists_false_iff st base).1 hfresh
    have hclone : clone_voice st encode readable base ref_text (some af) =
        (.ok base,
         { fs := { txts := addFile st.fs.txts base,
                   wavs := addFile st.fs.wavs base,
                   pts := addFile st.fs.pts base },
           voices := st.voices ++ [(base, (⟨base, .txt⟩, ⟨base, .pt⟩))] }) := by
      unfold clone_voice
      simp only [hname, htext, hfresh, Bool.false_eq_true, if_false, if_pos hread, henc]
    rw [hclone]
    exact ⟨findEntry_append_fresh st.voices base _ hfresh', rfl⟩

/-- C10 (witness): a concrete voice `"v"` with all three artifacts resolves to
the `.wav` path (hence `encode_reference`), while the in-memory entry of a concrete fresh clone resolves to the `.pt` path (hence `torch.load`). -/
theorem load_voices_prefers_wav_over_pt_witness :
    (findEntry (load_voices ⟨["v"], ["v"], ["v"]⟩) "v" =
        some (⟨"v", .txt⟩, ⟨"v", .wav⟩) ∧
      reference_method ⟨"v", .wav⟩ = .encodeReference) ∧
    (findEntry (clone_voice ⟨⟨[], [], []⟩, []⟩ (fun _ => .ok ()) ["s"] "v" "t"
          (some "s")).2.voices "v" =
        some (⟨"v", .txt⟩, ⟨"v", .pt⟩) ∧
      reference_method ⟨"v", .pt⟩ = .torchLoad) := by
  constructor
  · exact (load_voices_prefers_wav_over_pt ⟨["v"], ["v"], ["v"]⟩ "v"
      ⟨⟨[], [], []⟩, []⟩ (fun _ => .ok ()) ["s"] "t" "s").1
      (by decide) (by decide) (by decide)
  · exact (load_voices_prefers_wav_over_pt ⟨["v"], ["v"], ["v"]⟩ "v"
      ⟨⟨[], [], []⟩, []⟩ (fun _ => .ok ()) ["s"] "t" "s").2
      (by decide) (by decide) (by decide) rfl (by decide)

/-! Helper lemmas for the speech generator. -/

theorem process_chunk_snd (m : ModelOracle) (calls : Nat) :
    (process_chunk m calls).2 = calls + 1 := by
  unfold process_chunk
  cases m.results calls <;> rfl

theorem genLoop_items (m : ModelOracle) (e : Nat → ℚ) (n : Nat) :
    ∀ (len s : Nat),
      (genLoop m e n (List.range' s len) s).1 =
        (List.range' s len).flatMap
          (fun j => [GenItem.ev (chunkEvent (j + 1) n (e (j + 1))), GenItem.call j]) := by
  intro len
  induction len with
  | zero => intro s; rfl
  | succ k ih =>
    intro s
    rw [List.range'_succ]
    simp only [genLoop, List.flatMap_cons, process_chunk_snd]
    rw [ih (s + 1)]
    simp

theorem genLoop_results (m : ModelOracle) (e : Nat → ℚ) (n : Nat) :
    ∀ (len s : Nat),
      (genLoop m e n (List.range' s len) s).2 =
        (List.range' s len).filterMap
          (fun j => ((process_chunk m j).1).map (fun w => (j, w))) := by
  intro len
  induction len with
  | zero => intro s; rfl
  | succ k ih =>
    intro s
    rw [List.range'_succ]
    simp only [genLoop, process_chunk_snd, List.filterMap_cons]
    rw [ih (s + 1)]
    cases h : (process_chunk m s).1 <;> simp [h]

theorem eventsOf_append (l1 l2 : List GenItem) :
    eventsOf (l1 ++ l2) = eventsOf l1 ++ eventsOf l2 :=
  List.filterMap_append l1 l2 _

theorem eventsOf_flatMap_pair (ce : Nat → GenEvent) (l : List Nat) :
    eventsOf (l.flatMap (fun j => [GenItem.ev (ce j), GenItem.call j])) = l.map ce := by
  induction l with
  | nil => rfl
  | cons a rest ih =>
    rw [List.flatMap_cons, eventsOf_append, ih]
    rfl

theorem chunkProgress_eq (i n : Nat) : chunkProgress i n = 15 + 75 * i / n := by
  unfold chunkProgress
  have h1 : (15 : ℚ) + 75 * i / n = ((15 : ℤ) : ℚ) + ((75 * i : ℕ) : ℚ) / ((n : ℕ) : ℚ) := by
    push_cast
    ring
  rw [h1, Int.floor_int_add]
  have h2 : (0 : ℤ) ≤ ⌊((75 * i : ℕ) : ℚ) / ((n : ℕ) : ℚ)⌋ := by
    apply Int.floor_nonneg.2
    positivity
  rw [Int.toNat_add (by norm_num) h2, Int.floor_toNat, Nat.floor_div_eq_div]
  simp

theorem foldl_append_silence (sil : Wave) :
    ∀ (rest : List Wave) (acc : Wave),
      rest.foldl (fun a c => a ++ sil ++ c) acc =
        acc ++ rest.flatMap (fun c => sil ++ c) := by
  intro rest
  induction rest with
  | nil => intro acc; simp
  | cons b t ih =>
    intro acc
    rw [List.foldl_cons, ih, List.flatMap_cons]
    simp [List.append_assoc]

theorem flatten_intersperse_cons (sil : Wave) :
    ∀ (rest : List Wave) (a : Wave),
      ((a :: rest).intersperse sil).flatten = a ++ rest.flatMap (fun c => sil ++ c) := by
  intro rest
  induction rest with
  | nil => intro a; simp [List.intersperse_singleton]
  | cons b t ih =>
    intro a
    rw [List.intersperse_cons_cons, List.flatten_cons, List.flatten_cons, ih b,
      List.flatMap_cons]
    simp [List.append_assoc]

theorem concatWithSilence_eq_flatten_intersperse (sil : Wave) (ws : List Wave) :
    concatWithSilence sil ws = (ws.intersperse sil).flatten := by
  cases ws with
  | nil => rfl
  | cons a rest =>
    rw [flatten_intersperse_cons]
    exact foldl_append_silence sil rest a

theorem linspace0_length (stop : ℚ) (num : Nat) : (linspace0 stop num).length = num := by
  unfold linspace0
  by_cases h0 : num = 0
  · simp [h0]
  · by_cases h1 : num = 1
    · simp [h0, h1]
    · rw [if_neg h0, if_neg h1, List.length_map, List.length_range]

/-! Claims about the speech generator. -/

/-- C4: `process_chunk` makes exactly one `infer` call (the call count rises
by exactly one, with no retry), converts any exception of the collaborator
into an absent (`none`) result instead of re-raising, and passes a successful
result through unchanged. -/
theorem process_chunk_swallows_errors (m : ModelOracle) (calls : Nat) :
    (process_chunk m calls).2 = calls + 1 ∧
    (∀ e, m.results calls = .error e → (process_chunk m calls).1 = none) ∧
    (∀ w, m.results calls = .ok w → (process_chunk m calls).1 = some w) := by
  refine ⟨process_chunk_snd m calls, ?_, ?_⟩
  · intro e he
    unfold process_chunk
    rw [he]
  · intro w hw
    unfold process_chunk
    rw [hw]

/-- C4 (witness): a raising collaborator yields `none` after exactly one call. -/
theorem process_chunk_swallows_errors_witness :
    (process_chunk ⟨fun _ => .error "boom"⟩ 0).2 = 0 + 1 ∧
    (process_chunk ⟨fun _ => .error "boom"⟩ 0).1 = none :=
  ⟨(process_chunk_swallows_errors ⟨fun _ => .error "boom"⟩ 0).1,
   (process_chunk_swallows_errors ⟨fun _ => .error "boom"⟩ 0).2.1 "boom" rfl⟩

/-- C7: speed adjustment at speed 1.0 returns the waveform unchanged (the
function short-circuits before any resampling), and at speed 2.0 it returns a
nearest-index resample of length `⌊L / 2⌋`. -/
theorem apply_speed_adjustment_identity_and_half (audio : Wave) :
    apply_speed_adjustment audio 1 = .ok audio ∧
    ∃ w, apply_speed_adjustment audio 2 = .ok w ∧ w.length = audio.length / 2 := by
  constructor
  · unfold apply_speed_adjustment
    rw [if_pos rfl]
  · unfold apply_speed_adjustment
    rw [if_neg (by norm_num), if_neg (by norm_num)]
    have htarget : pyInt ((audio.length : ℚ) / 2) = ((audio.length / 2 : ℕ) : ℤ) := by
      unfold pyInt
      rw [if_pos (by positivity)]
      rw [show ((audio.length : ℚ)) = (((audio.length : ℤ) : ℚ)) by push_cast; ring,
        show ((2 : ℚ)) = (((2 : ℕ) : ℚ)) by norm_num,
        Rat.floor_intCast_div_natCast, Int.natCast_div]
    rw [htarget]
    rw [if_neg (not_lt.2 (Int.natCast_nonneg _))]
    refine ⟨_, rfl, ?_⟩
    rw [List.length_map, linspace0_length, Int.toNat_natCast]

theorem filterMap_ite_eq_filter_map (p : Nat → Prop) [DecidablePred p]
    (f : Nat → Nat × Wave) (l : List Nat) :
    l.filterMap (fun a => if p a then some (f a) else none) =
      (l.filter (fun a => p a)).map f := by
  induction l with
  | nil => rfl
  | cons a rest ih => by_cases h : p a <;> simp [h, ih]

theorem eventsOf_getLast_pair (l : List GenItem) (e1 e2 : GenEvent) :
    (eventsOf (l ++ [GenItem.ev e1, GenItem.ev e2])).getLast? = some e2 := by
  rw [eventsOf_append]
  rw [show eventsOf [GenItem.ev e1, GenItem.ev e2] = [e1, e2] from rfl]
  rw [show eventsOf l ++ [e1, e2] = (eventsOf l ++ [e1]) ++ [e2] by simp]
  rw [List.getLast?_concat]

/-- C5: a job over `n ≥ 1` chunks in which every chunk synthesis call raises
terminates with a terminal error event of progress 0 reporting the aggregate
failure ("Failed to generate any audio"), writes no output file, and every
earlier event of the job has progress at least 10 (so the progress-0 terminal
error event is unique). -/
theorem generate_speech_all_chunks_fail (split : String → List String)
    (m : ModelOracle) (elapsed : Nat → ℚ) (totalElapsed : ℚ) (st : VMState)
    (text voice_name : String) (speed : ℚ) (errf : Nat → String)
    (h1 : ¬(text = "" ∨ isBlank text = true))
    (h2 : voice_name ≠ "")
    (h3 : voice_exists st voice_name = true)
    (hn : 1 ≤ (split text).length)
    (hbad : ∀ j, j < (split text).length → m.results j = .error (errf j)) :
    (generate_speech split m elapsed totalElapsed st text voice_name speed).2 = none ∧
    (eventsOf
        (generate_speech split m elapsed totalElapsed st text voice_name speed).1).getLast? =
      some ⟨0, none, .errorGenerating "Failed to generate any audio"⟩ ∧
    ∀ e ∈ (eventsOf
        (generate_speech split m elapsed totalElapsed st text voice_name speed).1).dropLast,
      10 ≤ e.progress := by
  have hn0 : (split text).length ≠ 0 := by omega
  have hloop2 : (genLoop m elapsed (split text).length
      (List.range (split text).length) 0).2 = [] := by
    rw [List.range_eq_range', genLoop_results]
    rw [List.filterMap_eq_nil_iff]
    intro j hj
    have hjn : j < (split text).length := by
      have := List.mem_range'_1.1 hj
      omega
    rw [show (process_chunk m j).1 = none from by unfold process_chunk; rw [hbad j hjn]]
    rfl
  have hrun : generate_speech split m elapsed totalElapsed st text voice_name speed =
      ([GenItem.ev ⟨10, none, .loadingRef⟩,
        GenItem.ev ⟨15, none,
          .estimatedTotal (estimate_generation_time (split text).length) (split text).length⟩] ++
       (genLoop m elapsed (split text).length (List.range (split text).length) 0).1 ++
       [GenItem.ev ⟨0, none, .errorGenerating "Failed to generate any audio"⟩], none) := by
    simp only [generate_speech]
    rw [if_neg h1, if_neg h2,
      if_neg (show ¬voice_exists st voice_name = false by simp [h3]),
      if_neg hn0, if_pos hloop2]
  rw [hrun]
  have hitems : (genLoop m elapsed (split text).length
      (List.range (split text).length) 0).1 =
      (List.range (split text).length).flatMap
        (fun j => [GenItem.ev (chunkEvent (j + 1) (split text).length (elapsed (j + 1))),
                   GenItem.call j]) := by
    rw [List.range_eq_range', genLoop_items, ← List.range_eq_range']
  refine ⟨rfl, ?_, ?_⟩
  · simp only
    rw [eventsOf_append]
    rw [show eventsOf [GenItem.ev ⟨0, none, .errorGenerating "Failed to generate any audio"⟩] =
      [⟨0, none, .errorGenerating "Failed to generate any audio"⟩] from rfl]
    rw [List.getLast?_concat]
  · simp only
    intro e he
    rw [eventsOf_append,
      show eventsOf [GenItem.ev ⟨0, none, .errorGenerating "Failed to generate any audio"⟩] =
        [⟨0, none, .errorGenerating "Failed to generate any audio"⟩] from rfl,
      List.dropLast_concat, eventsOf_append, hitems, eventsOf_flatMap_pair] at he
    rcases List.mem_append.1 he with hh | hm
    · rw [show eventsOf [GenItem.ev ⟨10, none, .loadingRef⟩,
          GenItem.ev ⟨15, none, .estimatedTotal
            (estimate_generation_time (split text).length) (split text).length⟩] =
          [⟨10, none, .loadingRef⟩, ⟨15, none, .estimatedTotal
            (estimate_generation_time (split text).length) (split text).length⟩]
        from rfl] at hh
      rcases List.mem_cons.1 hh with rfl | hh2
      · norm_num
      · rcases List.mem_cons.1 hh2 with rfl | hh3
        · norm_num
        · cases hh3
    · rcases List.mem_map.1 hm with ⟨j, _, rfl⟩
      rw [show (chunkEvent (j + 1) (split text).length (elapsed (j + 1))).progress =
        chunkProgress (j + 1) (split text).length from rfl, chunkProgress_eq]
      exact le_add_right (by norm_num)

/-- C5 (witness): a concrete 2-chunk job whose two `infer` calls both raise
ends in the aggregate-failure terminal event and writes nothing. -/
theorem generate_speech_all_chunks_fail_witness :
    (generate_speech (fun _ => ["a", "b"]) ⟨fun _ => .error "x"⟩ (fun i => (i : ℚ)) 9
      ⟨⟨["v"], ["v"], []⟩, [("v", (⟨"v", .txt⟩, ⟨"v", .wav⟩))]⟩ "hello" "v" 1).2 = none ∧
    (eventsOf (generate_speech (fun _ => ["a", "b"]) ⟨fun _ => .error "x"⟩ (fun i => (i : ℚ)) 9
      ⟨⟨["v"], ["v"], []⟩, [("v", (⟨"v", .txt⟩, ⟨"v", .wav⟩))]⟩ "hello" "v" 1).1).getLast? =
      some ⟨0, none, .errorGenerating "Failed to generate any audio"⟩ :=
  ⟨(generate_speech_all_chunks_fail (fun _ => ["a", "b"]) ⟨fun _ => .error "x"⟩
      (fun i => (i : ℚ)) 9 ⟨⟨["v"], ["v"], []⟩, [("v", (⟨"v", .txt⟩, ⟨"v", .wav⟩))]⟩
      "hello" "v" 1 (fun _ => "x") (by decide) (by decide) (by decide) (by decide)
      (fun _ _ => rfl)).1,
   (generate_speech_all_chunks_fail (fun _ => ["a", "b"]) ⟨fun _ => .error "x"⟩
      (fun i => (i : ℚ)) 9 ⟨⟨["v"], ["v"], []⟩, [("v", (⟨"v", .txt⟩, ⟨"v", .wav⟩))]⟩
      "hello" "v" 1 (fun _ => "x") (by decide) (by decide) (by decide) (by decide)
      (fun _ _ => rfl)).2.1⟩

/-- C1: a job (at the default speed 1.0) over `n ≥ 2` chunks in which exactly
the synthesis call of one chunk raises still ends in the terminal success event
(progress 100 with the output path), and the written waveform is the
concatenation of the audio of the surviving chunks in original split-index order
with exactly one fixed silence segment between each adjacent pair. -/
theorem generate_speech_one_chunk_fails (split : String → List String)
    (m : ModelOracle) (elapsed : Nat → ℚ) (totalElapsed : ℚ) (st : VMState)
    (text voice_name : String) (k : Nat) (w : Nat → Wave) (err : String)
    (h1 : ¬(text = "" ∨ isBlank text = true))
    (h2 : voice_name ≠ "")
    (h3 : voice_exists st voice_name = true)
    (hn : 2 ≤ (split text).length)
    (hk : k < (split text).length)
    (hok : ∀ j, j < (split text).length → j ≠ k → m.results j = .ok (w j))
    (hbad : m.results k = .error err) :
    (generate_speech split m elapsed totalElapsed st text voice_name 1).2 =
      some (((((List.range (split text).length).filter (fun j => j ≠ k)).map w).intersperse
        silenceWave).flatten) ∧
    (eventsOf
        (generate_speech split m elapsed totalElapsed st text voice_name 1).1).getLast? =
      some ⟨100, some TEMP_OUTPUT_PATH, .complete totalElapsed⟩ := by
  have hn0 : (split text).length ≠ 0 := by omega
  have hres : (genLoop m elapsed (split text).length (List.range (split text).length) 0).2 =
      ((List.range (split text).length).filter (fun j => j ≠ k)).map (fun j => (j, w j)) := by
    rw [List.range_eq_range', genLoop_results, ← List.range_eq_range']
    have hcong : ∀ j ∈ List.range (split text).length,
        ((process_chunk m j).1).map (fun w' => (j, w')) =
          (if j ≠ k then some (j, w j) else none) := by
      intro j hj
      have hjn : j < (split text).length := List.mem_range.1 hj
      by_cases hjk : j = k
      · subst hjk
        unfold process_chunk
        rw [hbad]
        simp
      · unfold process_chunk
        rw [hok j hjn hjk]
        simp [hjk]
    rw [List.filterMap_congr hcong,
      filterMap_ite_eq_filter_map (fun j => j ≠ k) (fun j => (j, w j))]
  have hmem0 : (if k = 0 then 1 else 0) ∈
      (List.range (split text).length).filter (fun j => j ≠ k) := by
    rw [List.mem_filter]
    constructor
    · rw [List.mem_range]
      by_cases hk0 : k = 0
      · simp only [hk0, if_true]
        omega
      · simp only [hk0, if_false]
        omega
    · by_cases hk0 : k = 0
      · simp [hk0]
      · simp only [hk0, if_false]
        simp [Ne.symm hk0]
  have hne : ((List.range (split text).length).filter (fun j => j ≠ k)).map
      (fun j => (j, w j)) ≠ [] := by
    intro hcontra
    rw [List.map_eq_nil_iff] at hcontra
    rw [hcontra] at hmem0
    cases hmem0
  have hsorted : List.insertionSort (fun a b => a.1 ≤ b.1)
      (((List.range (split text).length).filter (fun j => j ≠ k)).map (fun j => (j, w j))) =
      ((List.range (split text).length).filter (fun j => j ≠ k)).map (fun j => (j, w j)) := by
    apply List.Sorted.insertionSort_eq
    apply List.pairwise_map.mpr
    exact (List.Pairwise.sublist (List.filter_sublist _)
      (List.pairwise_lt_range _)).imp (fun h => le_of_lt h)
  have hrun : generate_speech split m elapsed totalElapsed st text voice_name 1 =
      ([GenItem.ev ⟨10, none, .loadingRef⟩,
        GenItem.ev ⟨15, none, .estimatedTotal (estimate_generation_time (split text).length)
          (split text).length⟩] ++
       (genLoop m elapsed (split text).length (List.range (split text).length) 0).1 ++
       [GenItem.ev ⟨90, none, .finalizing⟩,
        GenItem.ev ⟨100, some TEMP_OUTPUT_PATH, .complete totalElapsed⟩],
       some (concatWithSilence silenceWave
         ((((List.range (split text).length).filter (fun j => j ≠ k)).map
           (fun j => (j, w j))).map Prod.snd))) := by
    simp only [generate_speech]
    rw [if_neg h1, if_neg h2,
      if_neg (show ¬voice_exists st voice_name = false by simp [h3]),
      if_neg hn0, hres, if_neg hne, hsorted]
    rfl
  rw [hrun]
  constructor
  · simp only
    rw [List.map_map]
    rw [show (Prod.snd ∘ fun j : ℕ => (j, w j)) = w from rfl]
    rw [concatWithSilence_eq_flatten_intersperse]
  · simp only
    exact eventsOf_getLast_pair _ _ _

/-- C1 (witness): in a concrete 3-chunk job whose middle chunk raises, the
output is the audio of chunk 0, one silence gap, then the audio of chunk 2, and the job
ends in the progress-100 success event. -/
theorem generate_speech_one_chunk_fails_witness :
    (generate_speech (fun _ => ["a", "b", "c"])
        ⟨fun j => if j = 1 then .error "boom" else .ok [1]⟩ (fun i => (i : ℚ)) 9
        ⟨⟨["v"], ["v"], []⟩, [("v", (⟨"v", .txt⟩, ⟨"v", .wav⟩))]⟩ "hello" "v" 1).2 =
      some (((((List.range 3).filter (fun j => j ≠ 1)).map (fun _ => ([1] : Wave))).intersperse
        silenceWave).flatten) ∧
    (eventsOf (generate_speech (fun _ => ["a", "b", "c"])
        ⟨fun j => if j = 1 then .error "boom" else .ok [1]⟩ (fun i => (i : ℚ)) 9
        ⟨⟨["v"], ["v"], []⟩, [("v", (⟨"v", .txt⟩, ⟨"v", .wav⟩))]⟩ "hello" "v" 1).1).getLast? =
      some ⟨100, some TEMP_OUTPUT_PATH, .complete 9⟩ :=
  generate_speech_one_chunk_fails (fun _ => ["a", "b", "c"])
    ⟨fun j => if j = 1 then .error "boom" else .ok [1]⟩ (fun i => (i : ℚ)) 9
    ⟨⟨["v"], ["v"], []⟩, [("v", (⟨"v", .txt⟩, ⟨"v", .wav⟩))]⟩ "hello" "v" 1
    (fun _ => [1]) "boom" (by decide) (by decide) (by decide) (by decide) (by decide)
    (by intro j hjn hjk
        have hj3 : j < 3 := hjn
        interval_cases j
        · rfl
        · exact absurd rfl hjk
        · rfl)
    rfl

theorem genLoop_items_range (m : ModelOracle) (e : Nat → ℚ) (n : Nat) :
    (genLoop m e n (List.range n) 0).1 =
      (List.range n).flatMap
        (fun j => [GenItem.ev (chunkEvent (j + 1) n (e (j + 1))), GenItem.call j]) := by
  rw [List.range_eq_range', genLoop_items, ← List.range_eq_range']

theorem eventsOf_genLoop (m : ModelOracle) (e : Nat → ℚ) (n : Nat) :
    eventsOf (genLoop m e n (List.range n) 0).1 =
      (List.range n).map (fun j => chunkEvent (j + 1) n (e (j + 1))) := by
  rw [genLoop_items_range, eventsOf_flatMap_pair]

theorem progress_map_chunkEvents (e : Nat → ℚ) (n : Nat) :
    ((List.range n).map (fun j => chunkEvent (j + 1) n (e (j + 1)))).map GenEvent.progress =
      (List.range n).map (fun j => chunkProgress (j + 1) n) := by
  rw [List.map_map]
  rfl

theorem chain_le_map_range_append (g : Nat → Nat) (t : Nat)
    (hmono : ∀ k, g k ≤ g (k + 1)) :
    ∀ (len s : Nat), g (s + len - 1) ≤ t →
      List.Chain' (· ≤ ·) ((List.range' s len).map g ++ [t]) := by
  intro len
  induction len with
  | zero =>
    intro s _
    simp
  | succ kk ih =>
    intro s hb
    rw [List.range'_succ, List.map_cons, List.cons_append]
    apply List.chain'_cons'.2
    constructor
    · intro y hy
      cases kk with
      | zero =>
        rw [List.range'_zero, List.map_nil, List.nil_append, List.head?_cons,
          Option.mem_some_iff] at hy
        subst hy
        have h1 : s + 1 - 1 = s := by omega
        rw [h1] at hb
        exact hb
      | succ kkk =>
        rw [List.range'_succ, List.map_cons, List.cons_append, List.head?_cons,
          Option.mem_some_iff] at hy
        subst hy
        exact hmono s
    · apply ih
      have heq : s + 1 + kk - 1 = s + (kk + 1) - 1 := by omega
      rw [heq]
      exact hb

theorem chain_progress_success (n : Nat) (hn : n ≠ 0) :
    List.Chain' (· ≤ ·)
      ((10 :: 15 :: (List.range n).map (fun j => chunkProgress (j + 1) n)) ++ [90]) := by
  have hmono : ∀ kk, chunkProgress (kk + 1) n ≤ chunkProgress (kk + 1 + 1) n := by
    intro kk
    rw [chunkProgress_eq, chunkProgress_eq]
    apply Nat.add_le_add_left
    apply Nat.div_le_div_right
    omega
  have hlast : chunkProgress (0 + n - 1 + 1) n ≤ 90 := by
    have h1 : 0 + n - 1 + 1 = n := by omega
    rw [h1, chunkProgress_eq, Nat.mul_div_cancel 75 (by omega : 0 < n)]
  rw [List.cons_append, List.cons_append]
  apply List.chain'_cons'.2
  refine ⟨?_, ?_⟩
  · intro y hy
    rw [List.head?_cons, Option.mem_some_iff] at hy
    subst hy
    norm_num
  · apply List.chain'_cons'.2
    refine ⟨?_, ?_⟩
    · intro y hy
      cases n with
      | zero => exact absurd rfl hn
      | succ nn =>
        rw [List.range_eq_range', List.range'_succ, List.map_cons, List.cons_append,
          List.head?_cons, Option.mem_some_iff] at hy
        subst hy
        rw [chunkProgress_eq]
        exact Nat.le_add_right 15 _
    · rw [List.range_eq_range']
      exact chain_le_map_range_append (fun j => chunkProgress (j + 1) n) 90 hmono n 0 hlast

theorem chain_progress_nofinal (n : Nat) (hn : n ≠ 0) :
    List.Chain' (· ≤ ·)
      (10 :: 15 :: (List.range n).map (fun j => chunkProgress (j + 1) n)) :=
  (chain_progress_success n hn).left_of_append

theorem events_shape_tail (m : ModelOracle) (elapsed : Nat → ℚ) (n : Nat)
    (est : Nat) (tail : List GenItem) :
    eventsOf ([GenItem.ev ⟨10, none, .loadingRef⟩,
        GenItem.ev ⟨15, none, .estimatedTotal est n⟩] ++
      (genLoop m elapsed n (List.range n) 0).1 ++ tail) =
      ((⟨10, none, .loadingRef⟩ : GenEvent) :: (⟨15, none, .estimatedTotal est n⟩ : GenEvent) ::
        (List.range n).map (fun j => chunkEvent (j + 1) n (elapsed (j + 1)))) ++
      eventsOf tail := by
  rw [eventsOf_append, eventsOf_append, eventsOf_genLoop]
  rfl

/-- C3: for every input, the event sequence of `generate_speech` is a finite
list ending in a terminal event (the generator is total — it never raises past
its boundary, communicating only through events); the progress values of all
events before the terminal one are monotonically non-decreasing; and the
terminal event carries progress 100 (with the output path) exactly when the
job wrote its output, and progress 0 (with no path) on every error. -/
theorem generate_speech_progress_contract (split : String → List String)
    (m : ModelOracle) (elapsed : Nat → ℚ) (totalElapsed : ℚ) (st : VMState)
    (text voice_name : String) (speed : ℚ) :
    eventsOf (generate_speech split m elapsed totalElapsed st text voice_name speed).1 ≠ [] ∧
    List.Chain' (· ≤ ·)
      (((eventsOf (generate_speech split m elapsed totalElapsed st text
        voice_name speed).1).dropLast).map GenEvent.progress) ∧
    (∃ e, (eventsOf (generate_speech split m elapsed totalElapsed st text
        voice_name speed).1).getLast? = some e ∧
      (((generate_speech split m elapsed totalElapsed st text voice_name speed).2 ≠ none ∧
        e.progress = 100 ∧ e.path = some TEMP_OUTPUT_PATH) ∨
       ((generate_speech split m elapsed totalElapsed st text voice_name speed).2 = none ∧
        e.progress = 0 ∧ e.path = none))) := by
  by_cases hb1 : text = "" ∨ isBlank text = true
  · have hrun : generate_speech split m elapsed totalElapsed st text voice_name speed =
        ([GenItem.ev ⟨0, none, .errEmptyText⟩], none) := by
      simp only [generate_speech]
      rw [if_pos hb1]
    rw [hrun]
    exact ⟨by simp [eventsOf], by simp [eventsOf],
      ⟨0, none, .errEmptyText⟩, rfl, Or.inr ⟨rfl, rfl, rfl⟩⟩
  by_cases hb2 : voice_name = ""
  · have hrun : generate_speech split m elapsed totalElapsed st text voice_name speed =
        ([GenItem.ev ⟨0, none, .errNoVoice⟩], none) := by
      simp only [generate_speech]
      rw [if_neg hb1, if_pos hb2]
    rw [hrun]
    exact ⟨by simp [eventsOf], by simp [eventsOf],
      ⟨0, none, .errNoVoice⟩, rfl, Or.inr ⟨rfl, rfl, rfl⟩⟩
  by_cases hb3 : voice_exists st voice_name = false
  · have hrun : generate_speech split m elapsed totalElapsed st text voice_name speed =
        ([GenItem.ev ⟨0, none, .errVoiceNotFound voice_name⟩], none) := by
      simp only [generate_speech]
      rw [if_neg hb1, if_neg hb2, if_pos hb3]
    rw [hrun]
    exact ⟨by simp [eventsOf], by simp [eventsOf],
      ⟨0, none, .errVoiceNotFound voice_name⟩, rfl, Or.inr ⟨rfl, rfl, rfl⟩⟩
  by_cases hb4 : (split text).length = 0
  · have hrun : generate_speech split m elapsed totalElapsed st text voice_name speed =
        ([GenItem.ev ⟨10, none, .loadingRef⟩,
          GenItem.ev ⟨0, none, .errorGenerating "No text to process"⟩], none) := by
      simp only [generate_speech]
      rw [if_neg hb1, if_neg hb2, if_neg hb3, if_pos hb4]
    rw [hrun]
    exact ⟨by simp [eventsOf], by simp [eventsOf],
      ⟨0, none, .errorGenerating "No text to process"⟩, rfl, Or.inr ⟨rfl, rfl, rfl⟩⟩
  by_cases hb5 : (genLoop m elapsed (split text).length
      (List.range (split text).length) 0).2 = []
  · have hrun : generate_speech split m elapsed totalElapsed st text voice_name speed =
        ([GenItem.ev ⟨10, none, .loadingRef⟩,
          GenItem.ev ⟨15, none,
            .estimatedTotal (estimate_generation_time (split text).length)
              (split text).length⟩] ++
         (genLoop m elapsed (split text).length (List.range (split text).length) 0).1 ++
         [GenItem.ev ⟨0, none, .errorGenerating "Failed to generate any audio"⟩], none) := by
      simp only [generate_speech]
      rw [if_neg hb1, if_neg hb2, if_neg hb3, if_neg hb4, if_pos hb5]
    rw [hrun]
    refine ⟨?_, ?_, ⟨0, none, .errorGenerating "Failed to generate any audio"⟩, ?_, ?_⟩
    · simp only
      rw [events_shape_tail]
      simp
    · simp only
      rw [events_shape_tail,
        show eventsOf [GenItem.ev ⟨0, none,
          .errorGenerating "Failed to generate any audio"⟩] =
          [(⟨0, none, .errorGenerating "Failed to generate any audio"⟩ : GenEvent)] from rfl,
        List.dropLast_concat, List.map_cons, List.map_cons, progress_map_chunkEvents]
      exact chain_progress_nofinal (split text).length hb4
    · simp only
      rw [events_shape_tail,
        show eventsOf [GenItem.ev ⟨0, none,
          .errorGenerating "Failed to generate any audio"⟩] =
          [(⟨0, none, .errorGenerating "Failed to generate any audio"⟩ : GenEvent)] from rfl,
        List.getLast?_concat]
    · exact Or.inr ⟨rfl, rfl, rfl⟩
  by_cases hs : speed = 1
  · have hrun : generate_speech split m elapsed totalElapsed st text voice_name speed =
        ([GenItem.ev ⟨10, none, .loadingRef⟩,
          GenItem.ev ⟨15, none,
            .estimatedTotal (estimate_generation_time (split text).length)
              (split text).length⟩] ++
         (genLoop m elapsed (split text).length (List.range (split text).length) 0).1 ++
         [GenItem.ev ⟨90, none, .finalizing⟩,
          GenItem.ev ⟨100, some TEMP_OUTPUT_PATH, .complete totalElapsed⟩],
         some (concatWithSilence silenceWave
           ((List.insertionSort (fun a b => a.1 ≤ b.1)
             (genLoop m elapsed (split text).length
               (List.range (split text).length) 0).2).map Prod.snd))) := by
      simp only [generate_speech]
      rw [if_neg hb1, if_neg hb2, if_neg hb3, if_neg hb4, if_neg hb5, if_pos hs]
    rw [hrun]
    refine ⟨?_, ?_, ⟨100, some TEMP_OUTPUT_PATH, .complete totalElapsed⟩, ?_, ?_⟩
    · simp only
      rw [events_shape_tail]
      simp
    · simp only
      rw [events_shape_tail,
        show eventsOf [GenItem.ev ⟨90, none, .finalizing⟩,
          GenItem.ev ⟨100, some TEMP_OUTPUT_PATH, .complete totalElapsed⟩] =
          [(⟨90, none, .finalizing⟩ : GenEvent),
           (⟨100, some TEMP_OUTPUT_PATH, .complete totalElapsed⟩ : GenEvent)] from rfl,
        show ((⟨10, none, .loadingRef⟩ : GenEvent) ::
            (⟨15, none, .estimatedTotal (estimate_generation_time (split text).length)
              (split text).length⟩ : GenEvent) ::
            (List.range (split text).length).map
              (fun j => chunkEvent (j + 1) (split text).length (elapsed (j + 1)))) ++
          [(⟨90, none, .finalizing⟩ : GenEvent),
           (⟨100, some TEMP_OUTPUT_PATH, .complete totalElapsed⟩ : GenEvent)] =
          (((⟨10, none, .loadingRef⟩ : GenEvent) ::
            (⟨15, none, .estimatedTotal (estimate_generation_time (split text).length)
              (split text).length⟩ : GenEvent) ::
            (List.range (split text).length).map
              (fun j => chunkEvent (j + 1) (split text).length (elapsed (j + 1)))) ++
          [(⟨90, none, .finalizing⟩ : GenEvent)]) ++
          [(⟨100, some TEMP_OUTPUT_PATH, .complete totalElapsed⟩ : GenEvent)] by simp,
        List.dropLast_concat, List.map_append, List.map_cons, List.map_cons,
        progress_map_chunkEvents]
      exact chain_progress_success (split text).length hb4
    · simp only
      rw [events_shape_tail,
        show eventsOf [GenItem.ev ⟨90, none, .finalizing⟩,
          GenItem.ev ⟨100, some TEMP_OUTPUT_PATH, .complete totalElapsed⟩] =
          [(⟨90, none, .finalizing⟩ : GenEvent),
           (⟨100, some TEMP_OUTPUT_PATH, .complete totalElapsed⟩ : GenEvent)] from rfl,
        show ((⟨10, none, .loadingRef⟩ : GenEvent) ::
            (⟨15, none, .estimatedTotal (estimate_generation_time (split text).length)
              (split text).length⟩ : GenEvent) ::
            (List.range (split text).length).map
              (fun j => chunkEvent (j + 1) (split text).length (elapsed (j + 1)))) ++
          [(⟨90, none, .finalizing⟩ : GenEvent),
           (⟨100, some TEMP_OUTPUT_PATH, .complete totalElapsed⟩ : GenEvent)] =
          (((⟨10, none, .loadingRef⟩ : GenEvent) ::
            (⟨15, none, .estimatedTotal (estimate_generation_time (split text).length)
              (split text).length⟩ : GenEvent) ::
            (List.range (split text).length).map
              (fun j => chunkEvent (j + 1) (split text).length (elapsed (j + 1)))) ++
          [(⟨90, none, .finalizing⟩ : GenEvent)]) ++
          [(⟨100, some TEMP_OUTPUT_PATH, .complete totalElapsed⟩ : GenEvent)] by simp,
        List.getLast?_concat]
    · exact Or.inl ⟨by simp, rfl, rfl⟩
  · cases happ : apply_speed_adjustment
      (concatWithSilence silenceWave
        ((List.insertionSort (fun a b => a.1 ≤ b.1)
          (genLoop m elapsed (split text).length
            (List.range (split text).length) 0).2).map Prod.snd)) speed with
    | ok wv =>
      have hrun : generate_speech split m elapsed totalElapsed st text voice_name speed =
          ([GenItem.ev ⟨10, none, .loadingRef⟩,
            GenItem.ev ⟨15, none,
              .estimatedTotal (estimate_generation_time (split text).length)
                (split text).length⟩] ++
           (genLoop m elapsed (split text).length (List.range (split text).length) 0).1 ++
           [GenItem.ev ⟨90, none, .finalizing⟩,
            GenItem.ev ⟨100, some TEMP_OUTPUT_PATH, .complete totalElapsed⟩],
           some wv) := by
        simp only [generate_speech]
        rw [if_neg hb1, if_neg hb2, if_neg hb3, if_neg hb4, if_neg hb5, if_neg hs, happ]
      rw [hrun]
      refine ⟨?_, ?_, ⟨100, some TEMP_OUTPUT_PATH, .complete totalElapsed⟩, ?_, ?_⟩
      · simp only
        rw [events_shape_tail]
        simp
      · simp only
        rw [events_shape_tail,
          show eventsOf [GenItem.ev ⟨90, none, .finalizing⟩,
            GenItem.ev ⟨100, some TEMP_OUTPUT_PATH, .complete totalElapsed⟩] =
            [(⟨90, none, .finalizing⟩ : GenEvent),
             (⟨100, some TEMP_OUTPUT_PATH, .complete totalElapsed⟩ : GenEvent)] from rfl,
          show ((⟨10, none, .loadingRef⟩ : GenEvent) ::
              (⟨15, none, .estimatedTotal (estimate_generation_time (split text).length)
                (split text).length⟩ : GenEvent) ::
              (List.range (split text).length).map
                (fun j => chunkEvent (j + 1) (split text).length (elapsed (j + 1)))) ++
            [(⟨90, none, .finalizing⟩ : GenEvent),
             (⟨100, some TEMP_OUTPUT_PATH, .complete totalElapsed⟩ : GenEvent)] =
            (((⟨10, none, .loadingRef⟩ : GenEvent) ::
              (⟨15, none, .estimatedTotal (estimate_generation_time (split text).length)
                (split text).length⟩ : GenEvent) ::
              (List.range (split text).length).map
                (fun j => chunkEvent (j + 1) (split text).length (elapsed (j + 1)))) ++
            [(⟨90, none, .finalizing⟩ : GenEvent)]) ++
            [(⟨100, some TEMP_OUTPUT_PATH, .complete totalElapsed⟩ : GenEvent)] by simp,
          List.dropLast_concat, List.map_append, List.map_cons, List.map_cons,
          progress_map_chunkEvents]
        exact chain_progress_success (split text).length hb4
      · simp only
        rw [events_shape_tail,
          show eventsOf [GenItem.ev ⟨90, none, .finalizing⟩,
            GenItem.ev ⟨100, some TEMP_OUTPUT_PATH, .complete totalElapsed⟩] =
            [(⟨90, none, .finalizing⟩ : GenEvent),
             (⟨100, some TEMP_OUTPUT_PATH, .complete totalElapsed⟩ : GenEvent)] from rfl,
          show ((⟨10, none, .loadingRef⟩ : GenEvent) ::
              (⟨15, none, .estimatedTotal (estimate_generation_time (split text).length)
                (split text).length⟩ : GenEvent) ::
              (List.range (split text).length).map
                (fun j => chunkEvent (j + 1) (split text).length (elapsed (j + 1)))) ++
            [(⟨90, none, .finalizing⟩ : GenEvent),
             (⟨100, some TEMP_OUTPUT_PATH, .complete totalElapsed⟩ : GenEvent)] =
            (((⟨10, none, .loadingRef⟩ : GenEvent) ::
              (⟨15, none, .estimatedTotal (estimate_generation_time (split text).length)
                (split text).length⟩ : GenEvent) ::
              (List.range (split text).length).map
                (fun j => chunkEvent (j + 1) (split text).length (elapsed (j + 1)))) ++
            [(⟨90, none, .finalizing⟩ : GenEvent)]) ++
            [(⟨100, some TEMP_OUTPUT_PATH, .complete totalElapsed⟩ : GenEvent)] by simp,
          List.getLast?_concat]
      · exact Or.inl ⟨by simp, rfl, rfl⟩
    | error e =>
      have hrun : generate_speech split m elapsed totalElapsed st text voice_name speed =
          ([GenItem.ev ⟨10, none, .loadingRef⟩,
            GenItem.ev ⟨15, none,
              .estimatedTotal (estimate_generation_time (split text).length)
                (split text).length⟩] ++
           (genLoop m elapsed (split text).length (List.range (split text).length) 0).1 ++
           [GenItem.ev ⟨90, none, .finalizing⟩,
            GenItem.ev ⟨0, none, .errorGenerating e⟩],
           none) := by
        simp only [generate_speech]
        rw [if_neg hb1, if_neg hb2, if_neg hb3, if_neg hb4, if_neg hb5, if_neg hs, happ]
      rw [hrun]
      refine ⟨?_, ?_, ⟨0, none, .errorGenerating e⟩, ?_, ?_⟩
      · simp only
        rw [events_shape_tail]
        simp
      · simp only
        rw [events_shape_tail,
          show eventsOf [GenItem.ev ⟨90, none, .finalizing⟩,
            GenItem.ev ⟨0, none, .errorGenerating e⟩] =
            [(⟨90, none, .finalizing⟩ : GenEvent),
             (⟨0, none, .errorGenerating e⟩ : GenEvent)] from rfl,
          show ((⟨10, none, .loadingRef⟩ : GenEvent) ::
              (⟨15, none, .estimatedTotal (estimate_generation_time (split text).length)
                (split text).length⟩ : GenEvent) ::
              (List.range (split text).length).map
                (fun j => chunkEvent (j + 1) (split text).length (elapsed (j + 1)))) ++
            [(⟨90, none, .finalizing⟩ : GenEvent),
             (⟨0, none, .errorGenerating e⟩ : GenEvent)] =
            (((⟨10, none, .loadingRef⟩ : GenEvent) ::
              (⟨15, none, .estimatedTotal (estimate_generation_time (split text).length)
                (split text).length⟩ : GenEvent) ::
              (List.range (split text).length).map
                (fun j => chunkEvent (j + 1) (split text).length (elapsed (j + 1)))) ++
            [(⟨90, none, .finalizing⟩ : GenEvent)]) ++
            [(⟨0, none, .errorGenerating e⟩ : GenEvent)] by simp,
          List.dropLast_concat, List.map_append, List.map_cons, List.map_cons,
          progress_map_chunkEvents]
        exact chain_progress_success (split text).length hb4
      · simp only
        rw [events_shape_tail,
          show eventsOf [GenItem.ev ⟨90, none, .finalizing⟩,
            GenItem.ev ⟨0, none, .errorGenerating e⟩] =
            [(⟨90, none, .finalizing⟩ : GenEvent),
             (⟨0, none, .errorGenerating e⟩ : GenEvent)] from rfl,
          show ((⟨10, none, .loadingRef⟩ : GenEvent) ::
              (⟨15, none, .estimatedTotal (estimate_generation_time (split text).length)
                (split text).length⟩ : GenEvent) ::
              (List.range (split text).length).map
                (fun j => chunkEvent (j + 1) (split text).length (elapsed (j + 1)))) ++
            [(⟨90, none, .finalizing⟩ : GenEvent),
             (⟨0, none, .errorGenerating e⟩ : GenEvent)] =
            (((⟨10, none, .loadingRef⟩ : GenEvent) ::
              (⟨15, none, .estimatedTotal (estimate_generation_time (split text).length)
                (split text).length⟩ : GenEvent) ::
              (List.range (split text).length).map
                (fun j => chunkEvent (j + 1) (split text).length (elapsed (j + 1)))) ++
            [(⟨90, none, .finalizing⟩ : GenEvent)]) ++
            [(⟨0, none, .errorGenerating e⟩ : GenEvent)] by simp,
          List.getLast?_concat]
      · exact Or.inr ⟨rfl, rfl, rfl⟩

theorem flatMap_pair_length (f g : Nat → GenItem) (l : List Nat) :
    (l.flatMap (fun j => [f j, g j])).length = 2 * l.length := by
  induction l with
  | nil => rfl
  | cons a rest ih =>
    rw [List.flatMap_cons, List.length_append, ih, List.length_cons]
    simp
    ring

theorem flatMap_pair_getElem (f g : Nat → GenItem) :
    ∀ (len s k : Nat), k < len →
      ((List.range' s len).flatMap (fun j => [f j, g j]))[2 * k]? = some (f (s + k)) ∧
      ((List.range' s len).flatMap (fun j => [f j, g j]))[2 * k + 1]? = some (g (s + k)) := by
  intro len
  induction len with
  | zero =>
    intro s k hk
    omega
  | succ kk ih =>
    intro s k hk
    rw [List.range'_succ, List.flatMap_cons]
    cases k with
    | zero =>
      constructor
      · rw [show ([f s, g s] ++ (List.range' (s + 1) kk).flatMap (fun j => [f j, g j])) =
            f s :: g s :: (List.range' (s + 1) kk).flatMap (fun j => [f j, g j]) from rfl,
          show 2 * 0 = 0 from rfl, List.getElem?_cons_zero]
        rfl
      · rw [show ([f s, g s] ++ (List.range' (s + 1) kk).flatMap (fun j => [f j, g j])) =
            f s :: g s :: (List.range' (s + 1) kk).flatMap (fun j => [f j, g j]) from rfl,
          show 2 * 0 + 1 = 0 + 1 from rfl, List.getElem?_cons_succ, List.getElem?_cons_zero]
        rfl
    | succ k2 =>
      have hlen2 : ([f s, g s] : List GenItem).length = 2 := rfl
      constructor
      · rw [List.getElem?_append_right (by rw [hlen2]; omega), hlen2]
        rw [show 2 * (k2 + 1) - 2 = 2 * k2 by omega]
        have hrec := (ih (s + 1) k2 (by omega)).1
        rw [show s + 1 + k2 = s + (k2 + 1) by omega] at hrec
        exact hrec
      · rw [List.getElem?_append_right (by rw [hlen2]; omega), hlen2]
        rw [show 2 * (k2 + 1) + 1 - 2 = 2 * k2 + 1 by omega]
        have hrec := (ih (s + 1) k2 (by omega)).2
        rw [show s + 1 + k2 = s + (k2 + 1) by omega] at hrec
        exact hrec

theorem trace_getElem_chunk (m : ModelOracle) (elapsed : Nat → ℚ) (n : Nat)
    (est : Nat) (tail : List GenItem) (i : Nat) (hi1 : 1 ≤ i) (hin : i ≤ n) :
    (([GenItem.ev ⟨10, none, .loadingRef⟩,
       GenItem.ev ⟨15, none, .estimatedTotal est n⟩] ++
      (genLoop m elapsed n (List.range n) 0).1 ++ tail)[2 * i]? =
      some (GenItem.ev (chunkEvent i n (elapsed i)))) ∧
    (([GenItem.ev ⟨10, none, .loadingRef⟩,
       GenItem.ev ⟨15, none, .estimatedTotal est n⟩] ++
      (genLoop m elapsed n (List.range n) 0).1 ++ tail)[2 * i + 1]? =
      some (GenItem.call (i - 1))) := by
  have hitems := genLoop_items_range m elapsed n
  have hlen : (genLoop m elapsed n (List.range n) 0).1.length = 2 * n := by
    rw [hitems, flatMap_pair_length, List.length_range]
  have hlenH : ([GenItem.ev ⟨10, none, .loadingRef⟩,
      GenItem.ev ⟨15, none, .estimatedTotal est n⟩] : List GenItem).length = 2 := rfl
  have hlenHB : (([GenItem.ev ⟨10, none, .loadingRef⟩,
      GenItem.ev ⟨15, none, .estimatedTotal est n⟩] : List GenItem) ++
      (genLoop m elapsed n (List.range n) 0).1).length = 2 + 2 * n := by
    rw [List.length_append, hlenH, hlen]
  have hget := flatMap_pair_getElem
    (fun j => GenItem.ev (chunkEvent (j + 1) n (elapsed (j + 1)))) (fun j => GenItem.call j)
    n 0 (i - 1) (by omega)
  rw [← List.range_eq_range', ← hitems] at hget
  have hget1 := hget.1
  have hget2 := hget.2
  simp only at hget1 hget2
  rw [show 0 + (i - 1) = i - 1 by omega, show i - 1 + 1 = i by omega] at hget1
  rw [show 0 + (i - 1) = i - 1 by omega] at hget2
  constructor
  · rw [List.getElem?_append_left (by rw [hlenHB]; omega),
      List.getElem?_append_right (by rw [hlenH]; omega), hlenH,
      show 2 * i - 2 = 2 * (i - 1) by omega]
    exact hget1
  · rw [List.getElem?_append_left (by rw [hlenHB]; omega),
      List.getElem?_append_right (by rw [hlenH]; omega), hlenH,
      show 2 * i + 1 - 2 = 2 * (i - 1) + 1 by omega]
    exact hget2

theorem generate_speech_trace_decomp (split : String → List String) (m : ModelOracle)
    (elapsed : Nat → ℚ) (totalElapsed : ℚ) (st : VMState)
    (text voice_name : String) (speed : ℚ)
    (hb1 : ¬(text = "" ∨ isBlank text = true)) (hb2 : voice_name ≠ "")
    (hb3 : ¬voice_exists st voice_name = false) (hb4 : (split text).length ≠ 0) :
    ∃ tail : List GenItem,
      (generate_speech split m elapsed totalElapsed st text voice_name speed).1 =
        [GenItem.ev ⟨10, none, .loadingRef⟩,
         GenItem.ev ⟨15, none, .estimatedTotal (estimate_generation_time (split text).length)
           (split text).length⟩] ++
        (genLoop m elapsed (split text).length (List.range (split text).length) 0).1 ++
        tail := by
  by_cases hb5 : (genLoop m elapsed (split text).length
      (List.range (split text).length) 0).2 = []
  · refine ⟨[GenItem.ev ⟨0, none, .errorGenerating "Failed to generate any audio"⟩], ?_⟩
    simp only [generate_speech]
    rw [if_neg hb1, if_neg hb2, if_neg hb3, if_neg hb4, if_pos hb5]
  by_cases hs : speed = 1
  · refine ⟨[GenItem.ev ⟨90, none, .finalizing⟩,
      GenItem.ev ⟨100, some TEMP_OUTPUT_PATH, .complete totalElapsed⟩], ?_⟩
    simp only [generate_speech]
    rw [if_neg hb1, if_neg hb2, if_neg hb3, if_neg hb4, if_neg hb5, if_pos hs]
  · cases happ : apply_speed_adjustment
      (concatWithSilence silenceWave
        ((List.insertionSort (fun a b => a.1 ≤ b.1)
          (genLoop m elapsed (split text).length
            (List.range (split text).length) 0).2).map Prod.snd)) speed with
    | ok wv =>
      refine ⟨[GenItem.ev ⟨90, none, .finalizing⟩,
        GenItem.ev ⟨100, some TEMP_OUTPUT_PATH, .complete totalElapsed⟩], ?_⟩
      simp only [generate_speech]
      rw [if_neg hb1, if_neg hb2, if_neg hb3, if_neg hb4, if_neg hb5, if_neg hs, happ]
    | error e =>
      refine ⟨[GenItem.ev ⟨90, none, .finalizing⟩,
        GenItem.ev ⟨0, none, .errorGenerating e⟩], ?_⟩
      simp only [generate_speech]
      rw [if_neg hb1, if_neg hb2, if_neg hb3, if_neg hb4, if_neg hb5, if_neg hs, happ]

/-- C6 (counterexample): in a concrete valid one-chunk job, the progress event
for chunk 1 sits at trace position 2 while the only synthesis call of the job sits
at position 3 — the event is emitted BEFORE the synthesis of that chunk, not after
it, refuting the claimed placement. -/
theorem chunk_event_precedes_synthesis_call :
    ((generate_speech (fun _ => ["a"]) ⟨fun _ => .ok [1]⟩ (fun _ => 2) 3
        ⟨⟨["v"], ["v"], []⟩, [("v", (⟨"v", .txt⟩, ⟨"v", .wav⟩))]⟩ "hi" "v" 1).1)[2]? =
      some (GenItem.ev (chunkEvent 1 1 2)) ∧
    ((generate_speech (fun _ => ["a"]) ⟨fun _ => .ok [1]⟩ (fun _ => 2) 3
        ⟨⟨["v"], ["v"], []⟩, [("v", (⟨"v", .txt⟩, ⟨"v", .wav⟩))]⟩ "hi" "v" 1).1)[3]? =
      some (GenItem.call 0) ∧
    (((generate_speech (fun _ => ["a"]) ⟨fun _ => .ok [1]⟩ (fun _ => 2) 3
        ⟨⟨["v"], ["v"], []⟩, [("v", (⟨"v", .txt⟩, ⟨"v", .wav⟩))]⟩ "hi" "v" 1).1).take 3).countP
      (fun it => match it with | GenItem.call _ => true | _ => false) = 0 ∧
    ((generate_speech (fun _ => ["a"]) ⟨fun _ => .ok [1]⟩ (fun _ => 2) 3
        ⟨⟨["v"], ["v"], []⟩, [("v", (⟨"v", .txt⟩, ⟨"v", .wav⟩))]⟩ "hi" "v" 1).1).countP
      (fun it => match it with | GenItem.call _ => true | _ => false) = 1 :=
  ⟨rfl, rfl, rfl, rfl⟩

/-- C6 (amended): for a valid job over `n` chunks and every chunk `1 ≤ i ≤ n`,
the trace holds the chunk-`i` progress event at position `2·i`, immediately
FOLLOWED at position `2·i + 1` by the synthesis call of that chunk — the event is
emitted just before chunk `i` is synthesized (i.e. after chunk `i - 1`
completes).  Its percentage equals `15 + ⌊75·i/n⌋`, and its status carries an
estimated-remaining-time figure `(elapsed_so_far / (i - 1)) · (n - (i - 1))`
for every `i ≥ 2`, and no remaining-time figure for `i = 1`. -/
theorem chunk_progress_event_placement_and_content (split : String → List String)
    (m : ModelOracle) (elapsed : Nat → ℚ) (totalElapsed : ℚ) (st : VMState)
    (text voice_name : String) (speed : ℚ) (i : Nat)
    (hb1 : ¬(text = "" ∨ isBlank text = true)) (hb2 : voice_name ≠ "")
    (hb3 : voice_exists st voice_name = true) (hb4 : (split text).length ≠ 0)
    (hi1 : 1 ≤ i) (hin : i ≤ (split text).length) :
    (generate_speech split m elapsed totalElapsed st text voice_name speed).1[2 * i]? =
      some (GenItem.ev (chunkEvent i (split text).length (elapsed i))) ∧
    (generate_speech split m elapsed totalElapsed st text voice_name speed).1[2 * i + 1]? =
      some (GenItem.call (i - 1)) ∧
    (chunkEvent i (split text).length (elapsed i)).progress =
      15 + 75 * i / (split text).length ∧
    (chunkEvent i (split text).length (elapsed i)).status =
      .processing i (split text).length (15 + 75 * i / (split text).length)
        (if 1 < i then
          some (elapsed i / ((i - 1 : ℕ) : ℚ) * (((split text).length - (i - 1) : ℕ) : ℚ))
        else none) := by
  obtain ⟨tail, htail⟩ := generate_speech_trace_decomp split m elapsed totalElapsed st
    text voice_name speed hb1 hb2 (by simp [hb3]) hb4
  rw [htail]
  have h := trace_getElem_chunk m elapsed (split text).length
    (estimate_generation_time (split text).length) tail i hi1 hin
  refine ⟨h.1, h.2, ?_, ?_⟩
  · rw [show (chunkEvent i (split text).length (elapsed i)).progress =
      chunkProgress i (split text).length from rfl, chunkProgress_eq]
  · rw [show (chunkEvent i (split text).length (elapsed i)).status =
      GenStatus.processing i (split text).length (chunkProgress i (split text).length)
        (if 1 < i then
          some (elapsed i / ((i - 1 : ℕ) : ℚ) * (((split text).length - (i - 1) : ℕ) : ℚ))
        else none) from rfl, chunkProgress_eq]

/-- C6 (witness): in a concrete valid 2-chunk job, the chunk-2 progress event
sits at trace position 4 right before its synthesis call at position 5, with
percentage `15 + ⌊75·2/2⌋ = 90` and the remaining-time estimate
`(elapsed/1)·(2-1)` in its status. -/
theorem chunk_progress_event_placement_and_content_witness :
    (generate_speech (fun _ => ["a", "b"]) ⟨fun _ => .ok [1]⟩ (fun i => (i : ℚ)) 9
      ⟨⟨["v"], ["v"], []⟩, [("v", (⟨"v", .txt⟩, ⟨"v", .wav⟩))]⟩
      "hello" "v" 1).1[2 * 2]? =
      some (GenItem.ev (chunkEvent 2 ((fun _ : String => ["a", "b"]) "hello").length
        ((fun i : Nat => (i : ℚ)) 2))) ∧
    (generate_speech (fun _ => ["a", "b"]) ⟨fun _ => .ok [1]⟩ (fun i => (i : ℚ)) 9
      ⟨⟨["v"], ["v"], []⟩, [("v", (⟨"v", .txt⟩, ⟨"v", .wav⟩))]⟩
      "hello" "v" 1).1[2 * 2 + 1]? = some (GenItem.call (2 - 1)) ∧
    (chunkEvent 2 ((fun _ : String => ["a", "b"]) "hello").length
        ((fun i : Nat => (i : ℚ)) 2)).progress =
      15 + 75 * 2 / ((fun _ : String => ["a", "b"]) "hello").length ∧
    (chunkEvent 2 ((fun _ : String => ["a", "b"]) "hello").length
        ((fun i : Nat => (i : ℚ)) 2)).status =
      .processing 2 ((fun _ : String => ["a", "b"]) "hello").length
        (15 + 75 * 2 / ((fun _ : String => ["a", "b"]) "hello").length)
        (if 1 < 2 then
          some (((fun i : Nat => (i : ℚ)) 2) / ((2 - 1 : ℕ) : ℚ) *
            ((((fun _ : String => ["a", "b"]) "hello").length - (2 - 1) : ℕ) : ℚ))
        else none) :=
  chunk_progress_event_placement_and_content (fun _ => ["a", "b"]) ⟨fun _ => .ok [1]⟩
    (fun i => (i : ℚ)) 9 ⟨⟨["v"], ["v"], []⟩, [("v", (⟨"v", .txt⟩, ⟨"v", .wav⟩))]⟩
    "hello" "v" 1 2 (by decide) (by decide) (by decide) (by decide) (by decide) (by decide)
